import Mathlib

/-!
Shallow embedding of the `rwa-backend` interactive token-manager client
(`src/rwa-backend/index.ts`).

The program is a single-threaded, menu-driven CLI.  We model it as pure
state-transition functions over a `Session` record (the mutable globals of
`index.ts`): the account registry, the current-account index, the bound
signing account, the user address, the wallet-client binding and the
optionally connected token address.  Console input is passed in as explicit
arguments (or lists of lines for the recursive account dialogues), chain
reads are an oracle record whose fields return `Option` values (a `none`
models a rejected RPC promise, which the source catches), and submitted
transactions are returned as an explicit list.

Private-key-to-address derivation (`privateKeyToAccount` of viem) is an
opaque signer capability; every function that needs it takes an arbitrary
`derive : String → String` parameter.

`parseUnits` / `formatUnits` of viem are modelled arithmetically on well
formed non-negative decimal strings (`DecStr`): `parseUnits s d` computes
round-half-up of `value s * 10 ^ d` and `formatUnits a d` renders the exact
decimal value `a / 10 ^ d`.
-/

/-- JavaScript string truthiness default (`process.env.X || d`):
the default is taken when the variable is unset or set to the empty
string. -/
def jsOr (v : Option String) (d : String) : String :=
  match v with
  | none => d
  | some s => if s = "" then d else s

/-- ASCII whitespace skipped by JS `parseInt`. -/
def isSpaceChar (c : Char) : Bool := c = ' ' || c = '\t' || c = '\n' || c = '\r'

/-- The digit sequence of a JS `parseInt` run, folded to a natural number. -/
def digitsToNat (s : List Char) : Nat :=
  s.foldl (fun n c => n * 10 + (c.toNat - '0'.toNat)) 0

/-- The longest leading digit run; `none` when there is none. -/
def digitsRun (l : List Char) : Option Nat :=
  let ds := l.takeWhile Char.isDigit
  if ds.isEmpty then none else some (digitsToNat ds)

/-- JavaScript `parseInt` on decimal input: skips leading whitespace,
consumes an optional sign and then the longest leading digit run; `none`
models `NaN`. -/
def parseIntJS (s : String) : Option Int :=
  match s.data.dropWhile isSpaceChar with
  | '-' :: rest => (digitsRun rest).map (fun n => -(n : Int))
  | '+' :: rest => (digitsRun rest).map (fun n => (n : Int))
  | rest => (digitsRun rest).map (fun n => (n : Int))

/-- Whether the string carries the `0x` marker
(`address.startsWith('0x')`). -/
def hexMarked (s : String) : Bool :=
  match s.data with
  | '0' :: 'x' :: _ => true
  | _ => false

/-- Function `toHexAddress` of `index.ts`: prepend `0x` when the marker is missing. -/
def toHexAddress (address : String) : String :=
  if hexMarked address then address else "0x" ++ address

/-- Private-key normalization used by `initialize` and `importAccount`:
prepend `0x` when the marker is missing. -/
def normalizeKey (key : String) : String :=
  if hexMarked key then key else "0x" ++ key

/-- A well-formed non-negative decimal string `intPart.fracDigits`, with
`fracLen` fractional digits whose joint value is `frac`. -/
structure DecStr where
  intPart : Nat
  frac : Nat
  fracLen : Nat
  frac_lt : frac < 10 ^ fracLen

/-- The rational value denoted by a decimal string. -/
def DecStr.value (a : DecStr) : ℚ :=
  (a.intPart : ℚ) + (a.frac : ℚ) / 10 ^ a.fracLen

/-- Function `parseAmount` of `index.ts` (viem `parseUnits`): the smallest-unit
integer of a decimal string at precision `d`.  When the string has at most
`d` fractional digits the conversion is exact; otherwise the extra digits
are rounded half-up, as viem's digit-wise rounding does. -/
def parseAmount (a : DecStr) (d : Nat) : Nat :=
  if a.fracLen ≤ d then
    a.intPart * 10 ^ d + a.frac * 10 ^ (d - a.fracLen)
  else
    (a.intPart * 10 ^ a.fracLen + a.frac + 10 ^ (a.fracLen - d) / 2) /
      10 ^ (a.fracLen - d)

/-- The numeric value of the decimal string produced by `formatAmount` of
`index.ts` (viem `formatUnits`): the exact value `amount / 10 ^ d`. -/
def formatAmount (amount : Nat) (d : Nat) : ℚ :=
  (amount : ℚ) / 10 ^ d

/-- Halving `10 ^ c` is exact for `c ≥ 1`. -/
lemma two_mul_pow_ten_div_two {c : ℕ} (hc : 1 ≤ c) : 2 * (10 ^ c / 2) = 10 ^ c := by
  obtain ⟨c, rfl⟩ := Nat.exists_eq_add_of_le hc
  have h : 10 ^ (1 + c) = 2 * (5 * 10 ^ c) := by ring
  rw [h, Nat.mul_div_cancel_left _ (by norm_num)]

/-- Rewriting the half-up rounding divisor to the `⌊x + 1/2⌋` form. -/
lemma add_half_div_eq (N c : ℕ) (hc : 1 ≤ c) :
    (N + 10 ^ c / 2) / 10 ^ c = (2 * N + 10 ^ c) / (2 * 10 ^ c) := by
  set h := 10 ^ c / 2 with hh
  have h2 : 2 * h = 10 ^ c := two_mul_pow_ten_div_two hc
  calc (N + h) / 10 ^ c
      = (N + h) / (2 * h) := by rw [h2]
    _ = 2 * (N + h) / (2 * (2 * h)) := (Nat.mul_div_mul_left _ _ (by norm_num)).symm
    _ = (2 * N + 10 ^ c) / (2 * 10 ^ c) := by rw [Nat.mul_add, h2]

/-- The numerator view of a decimal string's value. -/
lemma DecStr.value_eq (a : DecStr) :
    a.value = ((a.intPart * 10 ^ a.fracLen + a.frac : ℕ) : ℚ) / 10 ^ a.fracLen := by
  have h0 : ((10 : ℚ) ^ a.fracLen) ≠ 0 := by positivity
  rw [DecStr.value]
  push_cast
  field_simp

/-- Half-up rounding of a scaled natural number, as a natural division. -/
lemma round_natCast_div (N c : ℕ) (hc : 1 ≤ c) :
    round ((N : ℚ) / 10 ^ c) = ((N + 10 ^ c / 2) / 10 ^ c : ℕ) := by
  rw [round_eq]
  have hc0 : ((10 : ℚ) ^ c) ≠ 0 := by positivity
  have h1 : (N : ℚ) / 10 ^ c + 1 / 2
      = ((2 * N + 10 ^ c : ℕ) : ℚ) / ((2 * 10 ^ c : ℕ) : ℚ) := by
    push_cast
    field_simp
    ring
  rw [h1, Rat.floor_natCast_div_natCast, add_half_div_eq N c hc]
  exact (Int.natCast_div _ _).symm

/-- The function `parseAmount` computes exactly the spec's `round(value · 10 ^ d)`
(round half-up). -/
lemma parseAmount_eq_round (a : DecStr) (d : ℕ) :
    (parseAmount a d : ℤ) = round (a.value * 10 ^ d) := by
  rw [parseAmount]
  by_cases h : a.fracLen ≤ d
  · rw [if_pos h]
    have hx : a.value * 10 ^ d =
        (((a.intPart * 10 ^ a.fracLen + a.frac) * 10 ^ (d - a.fracLen) : ℕ) : ℚ) := by
      rw [DecStr.value_eq, div_mul_eq_mul_div, div_eq_iff (by positivity)]
      push_cast
      rw [mul_assoc, ← pow_add]
      have hde : d - a.fracLen + a.fracLen = d := by omega
      rw [hde]
    have hnat : a.intPart * 10 ^ d + a.frac * 10 ^ (d - a.fracLen)
        = (a.intPart * 10 ^ a.fracLen + a.frac) * 10 ^ (d - a.fracLen) := by
      rw [Nat.add_mul, Nat.mul_assoc, ← pow_add]
      have hde : a.fracLen + (d - a.fracLen) = d := by omega
      rw [hde]
    rw [hx, round_natCast, hnat]
  · rw [if_neg h]
    push_neg at h
    have hc : 1 ≤ a.fracLen - d := by omega
    have hx : a.value * 10 ^ d
        = ((a.intPart * 10 ^ a.fracLen + a.frac : ℕ) : ℚ) / 10 ^ (a.fracLen - d) := by
      rw [DecStr.value_eq, div_mul_eq_mul_div,
        div_eq_div_iff (by positivity) (by positivity)]
      rw [mul_assoc, ← pow_add]
      have hde : d + (a.fracLen - d) = a.fracLen := by omega
      rw [hde]
    rw [hx, round_natCast_div _ _ hc]

/-- Scaling a decimal string to smallest units and formatting the result
back differs from the original value by at most half a smallest unit. -/
lemma formatAmount_parseAmount_close (a : DecStr) (d : ℕ) :
    |formatAmount (parseAmount a d) d - a.value| ≤ 1 / 2 / 10 ^ d := by
  have hd0 : (0 : ℚ) < 10 ^ d := by positivity
  have hcast : ((parseAmount a d : ℕ) : ℚ) = ((round (a.value * 10 ^ d) : ℤ) : ℚ) := by
    have := parseAmount_eq_round a d
    exact_mod_cast congrArg (fun z : ℤ => (z : ℚ)) this
  have hval : a.value = a.value * 10 ^ d / 10 ^ d := by
    field_simp
  rw [formatAmount, hcast]
  calc |((round (a.value * 10 ^ d) : ℤ) : ℚ) / 10 ^ d - a.value|
      = |((round (a.value * 10 ^ d) : ℤ) : ℚ) - a.value * 10 ^ d| / 10 ^ d := by
        rw [hval]
        rw [div_sub_div_same, abs_div, abs_of_pos hd0]
        rw [← hval]
    _ ≤ (1 / 2) / 10 ^ d := by
        gcongr
        rw [abs_sub_comm]
        exact abs_sub_round (a.value * 10 ^ d)

/-- The four connection parameters of §4.1 / §6. -/
inductive Param where
  | rpcUrl
  | chainId
  | factoryAddress
  | privateKey
deriving Repr, DecidableEq

/-- The process environment at startup: each variable is either unset
(`none`) or set to a string. -/
structure Env where
  rpcUrl : Option String
  chainId : Option String
  tokenFactoryAddress : Option String
  privateKey : Option String

/-- The `config` object of `index.ts` after the module-level initializer
ran.  `chainId` is `parseInt(CHAIN_ID || "")`; `none` models `NaN`. -/
structure Config where
  rpcUrl : String
  chainId : Option Int
  tokenFactoryAddress : String
  privateKey : String
deriving Repr, DecidableEq

/-- The module-level `config` initializer of `index.ts` (lines 40-45). -/
def mkConfig (e : Env) : Config :=
  { rpcUrl := jsOr e.rpcUrl "http://localhost:8545"
    chainId := parseIntJS (jsOr e.chainId "")
    tokenFactoryAddress := jsOr e.tokenFactoryAddress ""
    privateKey := jsOr e.privateKey "" }

/-- The interactive prompts issued by `initialize` (lines 105-119): the
private key is requested when falsy, then the factory address when falsy.
No other connection parameter is ever prompted for. -/
def initPrompts (c : Config) : List Param :=
  (if c.privateKey = "" then [Param.privateKey] else []) ++
  (if c.tokenFactoryAddress = "" then [Param.factoryAddress] else [])

/-- Completion of the config by `initialize` from the prompt answers. -/
def resolveConfig (c : Config) (promptedKey promptedFactory : String) : Config :=
  let c1 := if c.privateKey = "" then { c with privateKey := promptedKey } else c
  if c1.tokenFactoryAddress = "" then
    { c1 with tokenFactoryAddress := promptedFactory }
  else c1

/-- An entry of the in-memory account registry (`AccountInfo` of
`index.ts`).  The viem signer object is represented by the private key it
was constructed from. -/
structure AccountInfo where
  name : String
  privateKey : String
  address : String
deriving Repr, DecidableEq

/-- The mutable globals of `index.ts`: the account registry, the index of
the current account, the active signer (`account`, by its construction
key), `userAddress`, the wallet-client binding (by the key of the signer
it was created with) and the connected token address. -/
structure Session where
  accounts : List AccountInfo
  currentAccountIndex : Nat
  account : String
  userAddress : String
  walletAccount : String
  tokenAddress : Option String
deriving Repr, DecidableEq

/-- Observable console/chain effects of one operation. -/
inductive Ev where
  | msgNoToken
  | msgError
  | msgInvalidSelection
  | msgInsufficientAllowance
  | msgNotFound
  | prompt
  | readChain
  | display
  | txSubmit
  | menu
deriving Repr, DecidableEq

/-- A state-changing transaction submitted through the wallet client. -/
inductive Tx where
  | createTok (name symbol owner : String)
  | mint (token recipient : String) (amount : Nat)
  | transferFrom (token sender recipient : String) (amount : Nat)
deriving Repr, DecidableEq

/-- Chain-read oracle for the connected token; a `none` models a rejected
RPC promise (caught by the source's `try`/`catch`). -/
structure TokenReads where
  name : String → Option String
  symbol : String → Option String
  decimals : String → Option Nat
  totalSupply : String → Option Nat
  balanceOf : String → String → Option Nat
  allowance : String → String → String → Option Nat

/-- Result of `showTokenDetails`: the updated session, the returned
`tokenAddress !== null` flag, and the observable events. -/
structure DetailsResult where
  session : Session
  ok : Bool
  events : List Ev
deriving Repr, DecidableEq

/-- Result of a token operation: updated session, submitted transactions
and observable events. -/
structure OpResult where
  session : Session
  txs : List Tx
  events : List Ev
deriving Repr, DecidableEq

/-- Function `showTokenDetails` (lines 551-604): with no connected token it only
reports and re-enters the menu; otherwise it reads name, symbol, decimals,
totalSupply and the current account's balance, and on any failure clears
`tokenAddress`. -/
def showTokenDetails (st : Session) (reads : TokenReads) : DetailsResult :=
  match st.tokenAddress with
  | none => ⟨st, false, [Ev.msgNoToken, Ev.menu]⟩
  | some tok =>
    match reads.name tok, reads.symbol tok, reads.decimals tok, reads.totalSupply tok with
    | some _, some _, some _, some _ =>
      match reads.balanceOf tok st.userAddress with
      | some _ => ⟨st, true, [Ev.readChain, Ev.display]⟩
      | none => ⟨{ st with tokenAddress := none }, false, [Ev.readChain, Ev.msgError]⟩
    | _, _, _, _ => ⟨{ st with tokenAddress := none }, false, [Ev.readChain, Ev.msgError]⟩

/-- Function `connectToToken` (lines 224-237): tentatively set the token address,
then validate it with `showTokenDetails` (whose `catch` clears the address
on failure). -/
def connectToToken (st : Session) (reads : TokenReads) (addressInput : String) :
    DetailsResult :=
  showTokenDetails { st with tokenAddress := some (toHexAddress addressInput) } reads

/-- Function `createToken` (lines 167-221), on a run whose factory transaction is
submitted and confirmed: `logs` is the list of `TokenCreated` events of
the confirmation's block addressed to the factory.  Each event carries its
decoded `tokenAddress` argument (the JS code additionally checks it for
truthiness, i.e. non-emptiness). -/
structure TokenCreatedEvent where
  tokenAddress : String
  owner : String
deriving Repr, DecidableEq

def createToken (st : Session) (reads : TokenReads)
    (name symbol ownerInput : String)
    (logs : List TokenCreatedEvent) : OpResult :=
  let initialOwner := if ownerInput = "" then st.userAddress else toHexAddress ownerInput
  let tx := Tx.createTok name symbol initialOwner
  match logs with
  | [] => ⟨st, [tx], [Ev.prompt, Ev.txSubmit, Ev.readChain, Ev.msgNotFound, Ev.menu]⟩
  | l :: _ =>
    if l.tokenAddress = "" then
      ⟨st, [tx], [Ev.prompt, Ev.txSubmit, Ev.readChain, Ev.msgNotFound, Ev.menu]⟩
    else
      let r := showTokenDetails { st with tokenAddress := some l.tokenAddress } reads
      ⟨r.session, [tx], [Ev.prompt, Ev.txSubmit, Ev.readChain] ++ r.events ++ [Ev.menu]⟩

/-- Function `checkBalance` (lines 519-548). -/
def checkBalance (st : Session) (reads : TokenReads) (addressInput : String) :
    OpResult :=
  match st.tokenAddress with
  | none => ⟨st, [], [Ev.msgNoToken, Ev.menu]⟩
  | some tok =>
    let address := if addressInput = "" then st.userAddress else toHexAddress addressInput
    match reads.decimals tok, reads.balanceOf tok address with
    | some _, some _ => ⟨st, [], [Ev.prompt, Ev.readChain, Ev.display, Ev.menu]⟩
    | _, _ => ⟨st, [], [Ev.prompt, Ev.readChain, Ev.msgError, Ev.menu]⟩

/-- Function `mintTokens` (lines 240-288).  `amountInput` is the parse of the
entered amount string; `none` models a non-numeric string, on which viem's
`parseUnits` throws (caught by the operation's `catch`). -/
def mintTokens (st : Session) (reads : TokenReads)
    (recipientInput : String) (amountInput : Option DecStr) : OpResult :=
  match st.tokenAddress with
  | none => ⟨st, [], [Ev.msgNoToken, Ev.menu]⟩
  | some tok =>
    let recipient := if recipientInput = "" then st.userAddress else toHexAddress recipientInput
    match reads.decimals tok with
    | none => ⟨st, [], [Ev.prompt, Ev.readChain, Ev.msgError, Ev.menu]⟩
    | some d =>
      match amountInput with
      | none => ⟨st, [], [Ev.prompt, Ev.readChain, Ev.msgError, Ev.menu]⟩
      | some a =>
        ⟨st, [Tx.mint tok recipient (parseAmount a d)],
          [Ev.prompt, Ev.readChain, Ev.txSubmit, Ev.display, Ev.menu]⟩

/-- Function `transferFromTokens` (lines 442-516): prompts sender, recipient and
amount, reads decimals, scales the amount, reads the sender's allowance to
the current account, and aborts before submitting when the allowance is
insufficient. -/
def transferFromTokens (st : Session) (reads : TokenReads)
    (senderInput recipientInput : String) (amountInput : Option DecStr) : OpResult :=
  match st.tokenAddress with
  | none => ⟨st, [], [Ev.msgNoToken, Ev.menu]⟩
  | some tok =>
    let sender := toHexAddress senderInput
    let recipient := toHexAddress recipientInput
    match reads.decimals tok with
    | none => ⟨st, [], [Ev.prompt, Ev.readChain, Ev.msgError, Ev.menu]⟩
    | some d =>
      match amountInput with
      | none => ⟨st, [], [Ev.prompt, Ev.readChain, Ev.msgError, Ev.menu]⟩
      | some a =>
        let amountInWei := parseAmount a d
        match reads.allowance tok sender st.userAddress with
        | none => ⟨st, [], [Ev.prompt, Ev.readChain, Ev.msgError, Ev.menu]⟩
        | some al =>
          if al < amountInWei then
            ⟨st, [], [Ev.prompt, Ev.readChain, Ev.msgInsufficientAllowance, Ev.menu]⟩
          else
            ⟨st, [Tx.transferFrom tok sender recipient amountInWei],
              [Ev.prompt, Ev.readChain, Ev.txSubmit, Ev.display, Ev.menu]⟩

/-- Function `initialize` (lines 105-164) after the prompts resolved and with a
successful balance read: normalize the key, derive the primary account,
register it as index 0 and current, and bind both clients. -/
def initSession (derive : String → String) (cfg : Config) : Session :=
  let pk := normalizeKey cfg.privateKey
  let addr := derive pk
  { accounts := [⟨"Default Account", pk, addr⟩]
    currentAccountIndex := 0
    account := pk
    userAddress := addr
    walletAccount := pk
    tokenAddress := none }

mutual

/-- Function `createNewAccount` (lines 686-715): the name prompt is the first input
line, the generated 32-byte random key is the head of the `keys` stream,
the switch-confirmation answer the next input line; answering `y` first
sets `currentAccountIndex` to the new entry and then runs the
`switchAccount` dialogue on the remaining input.  The fuel bounds the
user-driven recursion between the two dialogues; exhausted fuel returns
the session unchanged. -/
def createNewAccountF (derive : String → String) :
    Nat → Session → List String → List String → Session × List Ev
  | 0, st, _, _ => (st, [])
  | fuel + 1, st, ins, keys =>
    let name := ins.headD ""
    let key := keys.headD ""
    let newAcc : AccountInfo := ⟨name, key, derive key⟩
    let st1 := { st with accounts := st.accounts ++ [newAcc] }
    let ans := (ins.drop 1).headD ""
    if ans = "y" ∨ ans = "Y" then
      let st2 := { st1 with currentAccountIndex := st1.accounts.length - 1 }
      let r := switchAccountF derive fuel st2 (ins.drop 2) (keys.drop 1)
      (r.1, r.2 ++ [Ev.menu])
    else
      (st1, [Ev.menu])

/-- Function `switchAccount` (lines 718-766): reads a selection from the first
input line; `c` delegates to account creation (the source compares
`choice.toLowerCase()` to `'c'`, which holds exactly for the strings `c`
and `C`), a selection parsing to an in-range index rebinds the current
account, the signer, `userAddress` and the wallet client, and anything
else reports an invalid selection and leaves the session untouched. -/
def switchAccountF (derive : String → String) :
    Nat → Session → List String → List String → Session × List Ev
  | 0, st, _, _ => (st, [])
  | fuel + 1, st, ins, keys =>
    if st.accounts.length = 0 then
      createNewAccountF derive fuel st ins keys
    else
      let choice := ins.headD ""
      if choice = "c" ∨ choice = "C" then
        createNewAccountF derive fuel st (ins.drop 1) keys
      else
        match parseIntJS choice with
        | none => (st, [Ev.msgInvalidSelection, Ev.menu])
        | some j =>
          let selectedIndex := j - 1
          if 0 ≤ selectedIndex ∧ selectedIndex < (st.accounts.length : Int) then
            let entry := st.accounts.getD selectedIndex.toNat ⟨"", "", ""⟩
            ({ st with
                currentAccountIndex := selectedIndex.toNat
                account := entry.privateKey
                userAddress := derive entry.privateKey
                walletAccount := entry.privateKey },
              [Ev.display, Ev.menu])
          else
            (st, [Ev.msgInvalidSelection, Ev.menu])

end

/-- Function `importAccount` (lines 769-802): like account creation but with an
operator-supplied key (second input line, normalized to the `0x` form). -/
def importAccountF (derive : String → String) (fuel : Nat) (st : Session)
    (ins keys : List String) : Session × List Ev :=
  let name := ins.headD ""
  let key := normalizeKey ((ins.drop 1).headD "")
  let newAcc : AccountInfo := ⟨name, key, derive key⟩
  let st1 := { st with accounts := st.accounts ++ [newAcc] }
  let ans := (ins.drop 2).headD ""
  if ans = "y" ∨ ans = "Y" then
    let st2 := { st1 with currentAccountIndex := st1.accounts.length - 1 }
    let r := switchAccountF derive fuel st2 (ins.drop 3) keys
    (r.1, r.2 ++ [Ev.menu])
  else
    (st1, [Ev.menu])

/-- The registry invariant of §3: every stored address is the derivation
of the stored private key. -/
def addrInv (derive : String → String) (st : Session) : Prop :=
  ∀ a ∈ st.accounts, a.address = derive a.privateKey

/-! ### Concrete fixtures used by witnesses -/

/-- A concrete derivation function standing in for `privateKeyToAccount`. -/
def derive0 : String → String := fun k => "addr:" ++ k

def acct0 : AccountInfo := ⟨"Default Account", "0xaaa", "addr:0xaaa"⟩

/-- A bootstrapped session with one registered identity and no token. -/
def sess0 : Session := ⟨[acct0], 0, "0xaaa", "addr:0xaaa", "0xaaa", none⟩

/-- The same session connected to a token. -/
def sessTok : Session := { sess0 with tokenAddress := some "0xT" }

/-- A chain oracle whose reads all succeed (decimals 18, allowance 3). -/
def readsOK : TokenReads :=
  ⟨fun _ => some "Gold", fun _ => some "GLD", fun _ => some 18,
   fun _ => some 1000, fun _ _ => some 50, fun _ _ _ => some 3⟩

/-- A chain oracle whose reads all fail. -/
def readsFail : TokenReads :=
  ⟨fun _ => none, fun _ => none, fun _ => none, fun _ => none,
   fun _ _ => none, fun _ _ _ => none⟩

/-- An environment with all four connection variables unset. -/
def envAllUnset : Env := ⟨none, none, none, none⟩

/-- The decimal string `10`. -/
def decTen : DecStr := ⟨10, 0, 0, by norm_num⟩

/-- The decimal string `5`. -/
def decFive : DecStr := ⟨5, 0, 0, by norm_num⟩

/-! ### C2 — startup prompting of connection parameters -/

/-- C2 (counterexample): the claim states that every unset connection
parameter is interactively requested and none is silently defaulted.  With
all four environment variables unset, startup prompts only for the private
key and the factory address; the RPC URL silently takes the default
`http://localhost:8545` and the chain id parses to NaN, unprompted. -/
theorem C2_startup_prompts_counterexample :
    initPrompts (mkConfig envAllUnset) = [Param.privateKey, Param.factoryAddress] ∧
    Param.rpcUrl ∉ initPrompts (mkConfig envAllUnset) ∧
    Param.chainId ∉ initPrompts (mkConfig envAllUnset) ∧
    (mkConfig envAllUnset).rpcUrl = "http://localhost:8545" ∧
    (mkConfig envAllUnset).chainId = none := by
  decide

/-- C2 (amended): at startup, of the four connection parameters only the
private key and the factory contract address are interactively requested
when unset (or empty); the RPC URL silently falls back to
`http://localhost:8545` and the chain id is parsed from the raw
environment value — NaN when unset — with no prompt for either. -/
theorem C2_startup_prompts_amended (e : Env) :
    Param.rpcUrl ∉ initPrompts (mkConfig e) ∧
    Param.chainId ∉ initPrompts (mkConfig e) ∧
    (Param.privateKey ∈ initPrompts (mkConfig e) ↔ jsOr e.privateKey "" = "") ∧
    (Param.factoryAddress ∈ initPrompts (mkConfig e) ↔
      jsOr e.tokenFactoryAddress "" = "") ∧
    (mkConfig e).rpcUrl = jsOr e.rpcUrl "http://localhost:8545" ∧
    (mkConfig e).chainId = parseIntJS (jsOr e.chainId "") := by
  by_cases h1 : jsOr e.privateKey "" = "" <;>
    by_cases h2 : jsOr e.tokenFactoryAddress "" = "" <;>
      simp [initPrompts, mkConfig, h1, h2]

/-! ### C9 — read-only operations with no connected token -/

/-- C9: with no connected token, both read-only operations (balance check
and token details) only report the missing connection and re-enter the
menu: no chain read, no prompt, no state change. -/
theorem C9_no_token_read_only_guard (st : Session) (reads : TokenReads)
    (addressInput : String) (h : st.tokenAddress = none) :
    checkBalance st reads addressInput = ⟨st, [], [Ev.msgNoToken, Ev.menu]⟩ ∧
    showTokenDetails st reads = ⟨st, false, [Ev.msgNoToken, Ev.menu]⟩ ∧
    Ev.prompt ∉ (checkBalance st reads addressInput).events ∧
    Ev.readChain ∉ (checkBalance st reads addressInput).events ∧
    Ev.readChain ∉ (showTokenDetails st reads).events := by
  have hc : checkBalance st reads addressInput = ⟨st, [], [Ev.msgNoToken, Ev.menu]⟩ := by
    unfold checkBalance
    rw [h]
  have hd : showTokenDetails st reads = ⟨st, false, [Ev.msgNoToken, Ev.menu]⟩ := by
    unfold showTokenDetails
    rw [h]
  exact ⟨hc, hd, by simp [hc], by simp [hc], by simp [hd]⟩

theorem C9_no_token_read_only_guard_witness :
    checkBalance sess0 readsOK "" = ⟨sess0, [], [Ev.msgNoToken, Ev.menu]⟩ ∧
    showTokenDetails sess0 readsOK = ⟨sess0, false, [Ev.msgNoToken, Ev.menu]⟩ :=
  ⟨(C9_no_token_read_only_guard sess0 readsOK "" rfl).1,
   (C9_no_token_read_only_guard sess0 readsOK "" rfl).2.1⟩

/-! ### C4 — failed detail fetches clear the connected token -/

/-- Any failing constituent read makes `showTokenDetails` clear the
connected token. -/
lemma showTokenDetails_fail_clears (st : Session) (reads : TokenReads) (tok : String)
    (htok : st.tokenAddress = some tok)
    (hfail : reads.name tok = none ∨ reads.symbol tok = none ∨
      reads.decimals tok = none ∨ reads.totalSupply tok = none ∨
      reads.balanceOf tok st.userAddress = none) :
    (showTokenDetails st reads).session.tokenAddress = none := by
  unfold showTokenDetails
  rw [htok]
  dsimp only
  cases hn : reads.name tok with
  | none => rfl
  | some n =>
    cases hs : reads.symbol tok with
    | none => rfl
    | some s =>
      cases hdec : reads.decimals tok with
      | none => rfl
      | some d =>
        cases ht : reads.totalSupply tok with
        | none => rfl
        | some t =>
          cases hb : reads.balanceOf tok st.userAddress with
          | none => rfl
          | some b =>
            simp [hn, hs, hdec, ht, hb] at hfail

/-- C4: if any constituent chain read of a token-details fetch fails, the
connected token is cleared regardless of its prior value, and the same
mechanism clears the token on a failed connect-to-token attempt. -/
theorem C4_details_failure_clears_token (st : Session) (reads : TokenReads)
    (tok addressInput : String) :
    (st.tokenAddress = some tok →
      (reads.name tok = none ∨ reads.symbol tok = none ∨
        reads.decimals tok = none ∨ reads.totalSupply tok = none ∨
        reads.balanceOf tok st.userAddress = none) →
      (showTokenDetails st reads).session.tokenAddress = none) ∧
    ((reads.name (toHexAddress addressInput) = none ∨
      reads.symbol (toHexAddress addressInput) = none ∨
      reads.decimals (toHexAddress addressInput) = none ∨
      reads.totalSupply (toHexAddress addressInput) = none ∨
      reads.balanceOf (toHexAddress addressInput) st.userAddress = none) →
      (connectToToken st reads addressInput).session.tokenAddress = none) := by
  constructor
  · exact fun htok hfail => showTokenDetails_fail_clears st reads tok htok hfail
  · intro hfail
    exact showTokenDetails_fail_clears _ reads (toHexAddress addressInput) rfl hfail

theorem C4_details_failure_clears_token_witness :
    (showTokenDetails sessTok readsFail).session.tokenAddress = none ∧
    (connectToToken sess0 readsFail "0xB").session.tokenAddress = none :=
  ⟨(C4_details_failure_clears_token sessTok readsFail "0xT" "0xB").1 rfl (Or.inl rfl),
   (C4_details_failure_clears_token sess0 readsFail "0xT" "0xB").2 (Or.inl rfl)⟩

/-! ### C5 — token creation event scan -/

/-- C5: on a confirmed token-creation transaction, a block containing a
matching `TokenCreated` event makes the operation connect to the first
event's `tokenAddress` and display its details (4.7); with no matching
event a "not found" message is reported and the connected token keeps its
prior value. -/
theorem C5_createToken_event_scan (st : Session) (reads : TokenReads)
    (name symbol ownerInput : String) (logs : List TokenCreatedEvent) :
    (logs = [] →
      (createToken st reads name symbol ownerInput logs).session = st ∧
      Ev.msgNotFound ∈ (createToken st reads name symbol ownerInput logs).events) ∧
    (∀ l rest, logs = l :: rest → l.tokenAddress ≠ "" →
      (createToken st reads name symbol ownerInput logs).session =
        (showTokenDetails { st with tokenAddress := some l.tokenAddress } reads).session ∧
      ((∃ x, reads.name l.tokenAddress = some x) →
        (∃ x, reads.symbol l.tokenAddress = some x) →
        (∃ x, reads.decimals l.tokenAddress = some x) →
        (∃ x, reads.totalSupply l.tokenAddress = some x) →
        (∃ x, reads.balanceOf l.tokenAddress st.userAddress = some x) →
        (createToken st reads name symbol ownerInput logs).session.tokenAddress =
            some l.tokenAddress ∧
          Ev.display ∈ (createToken st reads name symbol ownerInput logs).events)) := by
  constructor
  · rintro rfl
    exact ⟨rfl, by simp [createToken]⟩
  · rintro l rest rfl hne
    constructor
    · unfold createToken
      dsimp only
      rw [if_neg hne]
    · rintro ⟨n, hn⟩ ⟨s, hs⟩ ⟨d, hd⟩ ⟨t, ht⟩ ⟨b, hb⟩
      have hdet : showTokenDetails { st with tokenAddress := some l.tokenAddress } reads
          = ⟨{ st with tokenAddress := some l.tokenAddress }, true,
              [Ev.readChain, Ev.display]⟩ := by
        unfold showTokenDetails
        dsimp only
        rw [hn, hs, hd, ht]
        dsimp only
        rw [hb]
      have hct : createToken st reads name symbol ownerInput (l :: rest)
          = ⟨{ st with tokenAddress := some l.tokenAddress }, 
              [Tx.createTok name symbol
                (if ownerInput = "" then st.userAddress else toHexAddress ownerInput)],
              [Ev.prompt, Ev.txSubmit, Ev.readChain] ++ [Ev.readChain, Ev.display]
                ++ [Ev.menu]⟩ := by
        unfold createToken
        dsimp only
        rw [if_neg hne, hdet]
      rw [hct]
      exact ⟨rfl, by simp⟩

theorem C5_createToken_event_scan_witness :
    (createToken sess0 readsOK "Gold" "GLD" "" []).session = sess0 ∧
    (createToken sess0 readsOK "Gold" "GLD" "" [⟨"0xNEW", "0xO"⟩]).session.tokenAddress =
      some "0xNEW" := by
  refine ⟨(C5_createToken_event_scan sess0 readsOK "Gold" "GLD" "" []).1 rfl |>.1, ?_⟩
  exact (((C5_createToken_event_scan sess0 readsOK "Gold" "GLD" ""
      [⟨"0xNEW", "0xO"⟩]).2 ⟨"0xNEW", "0xO"⟩ [] rfl (by decide)).2
    ⟨"Gold", rfl⟩ ⟨"GLD", rfl⟩ ⟨18, rfl⟩ ⟨1000, rfl⟩ ⟨50, rfl⟩).1

/-! ### C7 — mint amount scaling and recipient default -/

/-- C7: for a mutating operation the submitted amount is exactly
`round(s · 10 ^ d)`; non-numeric amount input aborts without submitting;
an empty recipient input defaults the mint recipient to the current
account's address; and minting `10` at 18 decimals submits `10 · 10^18`. -/
theorem C7_mint_amount_scaling (st : Session) (reads : TokenReads)
    (tok recipientInput : String) (a : DecStr) (d : Nat)
    (htok : st.tokenAddress = some tok)
    (hdec : reads.decimals tok = some d) :
    (mintTokens st reads recipientInput (some a)).txs =
      [Tx.mint tok
        (if recipientInput = "" then st.userAddress else toHexAddress recipientInput)
        (parseAmount a d)] ∧
    (parseAmount a d : ℤ) = round (a.value * 10 ^ d) ∧
    (mintTokens st reads recipientInput none).txs = [] ∧
    parseAmount decTen 18 = 10 * 10 ^ 18 := by
  refine ⟨?_, parseAmount_eq_round a d, ?_, by decide⟩
  · unfold mintTokens
    rw [htok]
    dsimp only
    rw [hdec]
  · unfold mintTokens
    rw [htok]
    dsimp only
    rw [hdec]

theorem C7_mint_amount_scaling_witness :
    (mintTokens sessTok readsOK "" (some decTen)).txs =
      [Tx.mint "0xT" sessTok.userAddress (parseAmount decTen 18)] ∧
    parseAmount decTen 18 = 10 * 10 ^ 18 := by
  have h := C7_mint_amount_scaling sessTok readsOK "0xT" "" decTen 18 rfl rfl
  exact ⟨by simpa using h.1, h.2.2.2⟩

/-! ### C1 — transferFrom allowance guard -/

/-- C1: `transferFrom` submits no transaction when the sender's allowance
to the current account is below the requested smallest-unit amount (the
shortfall is reported and control returns to the menu), and any submitted
`transferFrom` transaction carries an amount within the allowance. -/
theorem C1_transferFrom_allowance_guard (st : Session) (reads : TokenReads)
    (senderInput recipientInput : String) (amountInput : Option DecStr) :
    (∀ tok d a al, st.tokenAddress = some tok →
      reads.decimals tok = some d →
      amountInput = some a →
      reads.allowance tok (toHexAddress senderInput) st.userAddress = some al →
      al < parseAmount a d →
      transferFromTokens st reads senderInput recipientInput amountInput =
        ⟨st, [], [Ev.prompt, Ev.readChain, Ev.msgInsufficientAllowance, Ev.menu]⟩) ∧
    (∀ tx, tx ∈ (transferFromTokens st reads senderInput recipientInput amountInput).txs →
      ∃ tok d a al, st.tokenAddress = some tok ∧
        reads.decimals tok = some d ∧
        amountInput = some a ∧
        reads.allowance tok (toHexAddress senderInput) st.userAddress = some al ∧
        parseAmount a d ≤ al ∧
        tx = Tx.transferFrom tok (toHexAddress senderInput)
          (toHexAddress recipientInput) (parseAmount a d)) := by
  constructor
  · intro tok d a al htok hdec ha hal hlt
    subst ha
    unfold transferFromTokens
    rw [htok]
    dsimp only
    rw [hdec]
    dsimp only
    rw [hal]
    dsimp only
    rw [if_pos hlt]
  · intro tx htx
    unfold transferFromTokens at htx
    cases htok : st.tokenAddress with
    | none => rw [htok] at htx; simp at htx
    | some tok =>
      rw [htok] at htx
      dsimp only at htx
      cases hdec : reads.decimals tok with
      | none => rw [hdec] at htx; simp at htx
      | some d =>
        rw [hdec] at htx
        dsimp only at htx
        cases ha : amountInput with
        | none => rw [ha] at htx; simp at htx
        | some a =>
          rw [ha] at htx
          dsimp only at htx
          cases hal : reads.allowance tok (toHexAddress senderInput) st.userAddress with
          | none => rw [hal] at htx; simp at htx
          | some al =>
            rw [hal] at htx
            dsimp only at htx
            by_cases hlt : al < parseAmount a d
            · rw [if_pos hlt] at htx
              simp at htx
            · rw [if_neg hlt] at htx
              simp at htx
              exact ⟨tok, d, a, al, rfl, hdec, rfl, hal, le_of_not_lt hlt, htx⟩

theorem C1_transferFrom_allowance_guard_witness :
    transferFromTokens sessTok readsOK "0xS" "0xR" (some decFive) =
      ⟨sessTok, [], [Ev.prompt, Ev.readChain, Ev.msgInsufficientAllowance, Ev.menu]⟩ :=
  (C1_transferFrom_allowance_guard sessTok readsOK "0xS" "0xR" (some decFive)).1
    "0xT" 18 decFive 3 rfl rfl rfl rfl (by decide)

/-! ### C6 — amount scaling round trip -/

/-- C6: converting a valid decimal string to its smallest-unit integer
with `parseAmount` and formatting the result back with `formatAmount`
yields a value within one smallest unit (`10 ^ (-d)`) of the original. -/
theorem C6_amount_scaling_roundtrip (a : DecStr) (d : ℕ) :
    |formatAmount (parseAmount a d) d - a.value| ≤ 1 / 10 ^ d := by
  refine (formatAmount_parseAmount_close a d).trans ?_
  rw [div_div]
  have h10 : (0 : ℚ) < 10 ^ d := by positivity
  exact one_div_le_one_div_of_le h10 (by linarith)

/-! ### C3 — switching to an invalid index -/

/-- An out-of-range or unparsable selection leaves `switchAccount`'s
session untouched and reports an invalid selection. -/
lemma switchAccountF_invalid_frame (derive : String → String) (fuel : Nat)
    (st : Session) (choice : String) (ins keys : List String)
    (hne : st.accounts.length ≠ 0)
    (hc : ¬(choice = "c" ∨ choice = "C"))
    (hsel : ∀ j : Int, parseIntJS choice = some j →
      ¬(0 ≤ j - 1 ∧ j - 1 < (st.accounts.length : Int))) :
    switchAccountF derive (fuel + 1) st (choice :: ins) keys =
      (st, [Ev.msgInvalidSelection, Ev.menu]) := by
  unfold switchAccountF
  rw [if_neg hne]
  dsimp only [List.headD_cons]
  rw [if_neg hc]
  cases hp : parseIntJS choice with
  | none => rfl
  | some j =>
    dsimp only
    rw [if_neg (hsel j hp)]

/-- C3: a switch-account request whose selection parses to an index
outside `[1, count]` (or does not parse at all) leaves the
current-account index, the active signer, the user address and the
wallet-client binding unchanged, reports the error and returns to the
menu. -/
theorem C3_switch_invalid_selection_frame (derive : String → String) (fuel : Nat)
    (st : Session) (choice : String) (ins keys : List String)
    (hne : st.accounts.length ≠ 0)
    (hc : ¬(choice = "c" ∨ choice = "C"))
    (hsel : ∀ j : Int, parseIntJS choice = some j →
      ¬(0 ≤ j - 1 ∧ j - 1 < (st.accounts.length : Int))) :
    switchAccountF derive (fuel + 1) st (choice :: ins) keys =
      (st, [Ev.msgInvalidSelection, Ev.menu]) ∧
    (switchAccountF derive (fuel + 1) st (choice :: ins) keys).1.currentAccountIndex =
      st.currentAccountIndex ∧
    (switchAccountF derive (fuel + 1) st (choice :: ins) keys).1.account = st.account ∧
    (switchAccountF derive (fuel + 1) st (choice :: ins) keys).1.userAddress =
      st.userAddress ∧
    (switchAccountF derive (fuel + 1) st (choice :: ins) keys).1.walletAccount =
      st.walletAccount := by
  have h := switchAccountF_invalid_frame derive fuel st choice ins keys hne hc hsel
  exact ⟨h, by rw [h], by rw [h], by rw [h], by rw [h]⟩

theorem C3_switch_invalid_selection_frame_witness :
    switchAccountF derive0 1 sess0 ["5"] [] = (sess0, [Ev.msgInvalidSelection, Ev.menu]) := by
  refine (C3_switch_invalid_selection_frame derive0 0 sess0 "5" [] [] (by decide)
    (by decide) ?_).1
  intro j hj
  have h5 : parseIntJS "5" = some 5 := by decide
  rw [h5] at hj
  injection hj with hj5
  subst hj5
  decide

/-! ### C10 — create account, confirm switch, invalid selection -/

/-- C10: after creating an account and answering `y`, the current-account
index is set to the new entry before the switch dialogue re-prompts; an
invalid selection there leaves the signer, the user address and the
wallet binding on the previously bound identity while the index names the
new entry. -/
theorem C10_create_then_invalid_switch (derive : String → String) (fuel : Nat)
    (st : Session) (name key bad : String) (ins keys : List String)
    (hc : ¬(bad = "c" ∨ bad = "C"))
    (hsel : ∀ j : Int, parseIntJS bad = some j →
      ¬(0 ≤ j - 1 ∧ j - 1 < ((st.accounts.length + 1 : Nat) : Int))) :
    createNewAccountF derive (fuel + 2) st (name :: "y" :: bad :: ins) (key :: keys) =
      ({ st with
          accounts := st.accounts ++ [⟨name, key, derive key⟩]
          currentAccountIndex := st.accounts.length },
        [Ev.msgInvalidSelection, Ev.menu, Ev.menu]) := by
  unfold createNewAccountF
  dsimp only [List.headD_cons, List.drop_succ_cons, List.drop_zero]
  rw [if_pos (Or.inl rfl)]
  simp only [List.length_append, List.length_cons, List.length_nil, Nat.zero_add,
    Nat.add_zero, Nat.add_sub_cancel]
  rw [switchAccountF_invalid_frame derive fuel _ bad ins keys (by simp) hc
    (by
      intro j hj
      have h2 := hsel j hj
      simpa using h2)]
  rfl

theorem C10_create_then_invalid_switch_witness :
    createNewAccountF derive0 2 sess0 ["New", "y", "9"] ["0xbbb"] =
      ({ sess0 with
          accounts := sess0.accounts ++ [⟨"New", "0xbbb", derive0 "0xbbb"⟩]
          currentAccountIndex := sess0.accounts.length },
        [Ev.msgInvalidSelection, Ev.menu, Ev.menu]) := by
  refine C10_create_then_invalid_switch derive0 0 sess0 "New" "0xbbb" "9" [] [] (by decide) ?_
  intro j hj
  have h9 : parseIntJS "9" = some 9 := by decide
  rw [h9] at hj
  injection hj with hj9
  subst hj9
  decide

/-! ### C8 — registry address derivation invariant -/

/-- The two mutually recursive account dialogues preserve the
address-derivation invariant and only ever append to the registry. -/
lemma dialogue_addrInv (derive : String → String) :
    ∀ fuel : Nat,
      (∀ st ins keys, addrInv derive st →
        addrInv derive (switchAccountF derive fuel st ins keys).1 ∧
        ∃ l, (switchAccountF derive fuel st ins keys).1.accounts = st.accounts ++ l) ∧
      (∀ st ins keys, addrInv derive st →
        addrInv derive (createNewAccountF derive fuel st ins keys).1 ∧
        ∃ l, (createNewAccountF derive fuel st ins keys).1.accounts = st.accounts ++ l) := by
  intro fuel
  induction fuel with
  | zero =>
    exact ⟨fun st ins keys hinv => ⟨hinv, ⟨[], by simp [switchAccountF]⟩⟩,
      fun st ins keys hinv => ⟨hinv, ⟨[], by simp [createNewAccountF]⟩⟩⟩
  | succ n ih =>
    obtain ⟨ihs, ihc⟩ := ih
    constructor
    · intro st ins keys hinv
      unfold switchAccountF
      by_cases h0 : st.accounts.length = 0
      · rw [if_pos h0]
        exact ihc st ins keys hinv
      · rw [if_neg h0]
        dsimp only
        by_cases hC : ins.headD "" = "c" ∨ ins.headD "" = "C"
        · rw [if_pos hC]
          exact ihc st (ins.drop 1) keys hinv
        · rw [if_neg hC]
          cases hp : parseIntJS (ins.headD "") with
          | none => exact ⟨hinv, ⟨[], by simp⟩⟩
          | some j =>
            dsimp only
            by_cases hj : 0 ≤ j - 1 ∧ j - 1 < (st.accounts.length : Int)
            · rw [if_pos hj]
              refine ⟨?_, ⟨[], by simp⟩⟩
              intro a ha
              exact hinv a ha
            · rw [if_neg hj]
              exact ⟨hinv, ⟨[], by simp⟩⟩
    · intro st ins keys hinv
      unfold createNewAccountF
      dsimp only
      by_cases hy : (ins.drop 1).headD "" = "y" ∨ (ins.drop 1).headD "" = "Y"
      · rw [if_pos hy]
        dsimp only
        have hinv2 : addrInv derive
            { st with
                accounts := st.accounts ++
                  [⟨ins.headD "", keys.headD "", derive (keys.headD "")⟩]
                currentAccountIndex :=
                  (st.accounts ++
                    [(⟨ins.headD "", keys.headD "",
                        derive (keys.headD "")⟩ : AccountInfo)]).length - 1 } := by
          intro a ha
          rcases List.mem_append.mp ha with h | h
          · exact hinv a h
          · simp at h
            subst h
            rfl
        obtain ⟨hi, l, hl⟩ :=
          ihs { st with
                  accounts := st.accounts ++
                    [⟨ins.headD "", keys.headD "", derive (keys.headD "")⟩]
                  currentAccountIndex :=
                    (st.accounts ++
                      [(⟨ins.headD "", keys.headD "",
                          derive (keys.headD "")⟩ : AccountInfo)]).length - 1 }
            (ins.drop 2) (keys.drop 1) hinv2
        refine ⟨?_, ?_⟩
        · exact hi
        · exact ⟨[⟨ins.headD "", keys.headD "", derive (keys.headD "")⟩] ++ l,
            hl.trans (by simp)⟩
      · rw [if_neg hy]
        refine ⟨?_, ⟨[⟨ins.headD "", keys.headD "", derive (keys.headD "")⟩], rfl⟩⟩
        intro a ha
        rcases List.mem_append.mp ha with h | h
        · exact hinv a h
        · simp at h
          subst h
          rfl

/-- C8: every operation that appends an identity (bootstrap, create with a
fresh key, import) stores the address derived from the stored key, and no
operation modifies an already stored identity: the registry invariant
`address = derive privateKey` holds after bootstrap and is preserved by
the switch, create and import dialogues, the old entries being kept
verbatim at the front of the registry. -/
theorem C8_registry_address_derivation (derive : String → String) :
    (∀ cfg : Config, addrInv derive (initSession derive cfg)) ∧
    (∀ fuel st ins keys, addrInv derive st →
      addrInv derive (switchAccountF derive fuel st ins keys).1 ∧
      ∃ l, (switchAccountF derive fuel st ins keys).1.accounts = st.accounts ++ l) ∧
    (∀ fuel st ins keys, addrInv derive st →
      addrInv derive (createNewAccountF derive fuel st ins keys).1 ∧
      ∃ l, (createNewAccountF derive fuel st ins keys).1.accounts = st.accounts ++ l) ∧
    (∀ fuel st ins keys, addrInv derive st →
      addrInv derive (importAccountF derive fuel st ins keys).1 ∧
      ∃ l, (importAccountF derive fuel st ins keys).1.accounts = st.accounts ++ l) := by
  refine ⟨?_, fun fuel => (dialogue_addrInv derive fuel).1,
    fun fuel => (dialogue_addrInv derive fuel).2, ?_⟩
  · intro cfg a ha
    simp [initSession] at ha
    subst ha
    rfl
  · intro fuel st ins keys hinv
    unfold importAccountF
    dsimp only
    by_cases hy : (ins.drop 2).headD "" = "y" ∨ (ins.drop 2).headD "" = "Y"
    · rw [if_pos hy]
      dsimp only
      have hinv2 : addrInv derive
          { st with
              accounts := st.accounts ++
                [⟨ins.headD "", normalizeKey ((ins.drop 1).headD ""),
                  derive (normalizeKey ((ins.drop 1).headD ""))⟩]
              currentAccountIndex :=
                (st.accounts ++
                  [(⟨ins.headD "", normalizeKey ((ins.drop 1).headD ""),
                      derive (normalizeKey ((ins.drop 1).headD ""))⟩ :
                    AccountInfo)]).length - 1 } := by
        intro a ha
        rcases List.mem_append.mp ha with h | h
        · exact hinv a h
        · simp at h
          subst h
          rfl
      obtain ⟨hi, l, hl⟩ :=
        (dialogue_addrInv derive fuel).1
          { st with
              accounts := st.accounts ++
                [⟨ins.headD "", normalizeKey ((ins.drop 1).headD ""),
                  derive (normalizeKey ((ins.drop 1).headD ""))⟩]
              currentAccountIndex :=
                (st.accounts ++
                  [(⟨ins.headD "", normalizeKey ((ins.drop 1).headD ""),
                      derive (normalizeKey ((ins.drop 1).headD ""))⟩ :
                    AccountInfo)]).length - 1 }
          (ins.drop 3) keys hinv2
      refine ⟨?_, ?_⟩
      · exact hi
      · exact ⟨[⟨ins.headD "", normalizeKey ((ins.drop 1).headD ""),
            derive (normalizeKey ((ins.drop 1).headD ""))⟩] ++ l,
          hl.trans (by simp)⟩
    · rw [if_neg hy]
      refine ⟨?_, ⟨[⟨ins.headD "", normalizeKey ((ins.drop 1).headD ""),
          derive (normalizeKey ((ins.drop 1).headD ""))⟩], rfl⟩⟩
      intro a ha
      rcases List.mem_append.mp ha with h | h
      · exact hinv a h
      · simp at h
        subst h
        rfl

theorem C8_registry_address_derivation_witness :
    addrInv derive0 (initSession derive0 (mkConfig envAllUnset)) ∧
    addrInv derive0 (importAccountF derive0 1 sess0 ["N", "bbb", "n"] []).1 ∧
    ∃ l, (createNewAccountF derive0 1 sess0 ["N", "n"] ["0xccc"]).1.accounts =
      sess0.accounts ++ l := by
  have h := C8_registry_address_derivation derive0
  have hinv0 : addrInv derive0 sess0 := by
    intro a ha
    simp [sess0, acct0] at ha
    subst ha
    decide
  exact ⟨h.1 _, (h.2.2.2 1 sess0 ["N", "bbb", "n"] [] hinv0).1,
    (h.2.2.1 1 sess0 ["N", "n"] ["0xccc"] hinv0).2⟩
